import Mathlib

/-!
Verification of the nmos-cpp registry wiring
(`Development/nmos-cpp-registry/main.cpp`) and of the registry core it
drives. The `main` function is embedded as the sequential trace of the
actions it performs; the registry-core operations (registration engine,
expiration sweeper, event broadcaster) whose bodies live in headers
outside this translation unit are modelled from the specification, as
noted on each such definition.
-/

/-- The HTTP / WebSocket listeners constructed in `main` (main.cpp lines
103-172). -/
inductive ListenerId where
  | logging
  | settings
  | node
  | queryWs
  | query
  | registration
  | admin
  | mdns
deriving DecidableEq, Repr

/-- The two condition variables of `main`: `registration_expiration_condition`
(main.cpp:151) and `query_ws_events_condition` (main.cpp:133). -/
inductive CVId where
  | registrationExpirationCondition
  | queryWsEventsCondition
deriving DecidableEq, Repr

/-- The two mutexes relevant to the registry model plus the self-resources
mutex (main.cpp lines 25, 28, 31). -/
inductive MutexId where
  | selfMutex
  | registryMutex
  | logMutex
deriving DecidableEq, Repr

/-- The two background worker threads spawned by `main`:
`query_ws_events_sending` (main.cpp:143) and `registration_expiration`
(main.cpp:152). -/
inductive ThreadId where
  | queryWsEventsSending
  | registrationExpiration
deriving DecidableEq, Repr

/-- The observable actions `main` performs, in the order of the source. -/
inductive MainAction where
  | startThread (t : ThreadId)
  | seedSelfResources
  | insertSelfIntoRegistry
  | registerMdnsServices
  | openListener (l : ListenerId)
  | advertiserStart
  | waitForStdin
  | advertiserStop
  | closeListener (l : ListenerId)
  | logHttpException
  | setShutdownFlag
  | notifyAll (c : CVId)
  | joinThread (t : ThreadId)
  | logStopping
  | abnormalTermination
deriving DecidableEq, Repr

/-- The actions of the `try` block (main.cpp lines 186-232): open the
listeners in dependency order, start the advertiser, wait for stdin, then
stop the advertiser and close in reverse order. -/
def tryBlockActions : List MainAction :=
  [ .openListener .logging
  , .openListener .settings
  , .openListener .node
  , .openListener .queryWs
  , .openListener .query
  , .openListener .registration
  , .openListener .admin
  , .openListener .mdns
  , .advertiserStart
  , .waitForStdin
  , .advertiserStop
  , .closeListener .mdns
  , .closeListener .admin
  , .closeListener .registration
  , .closeListener .query
  , .closeListener .queryWs
  , .closeListener .node
  , .closeListener .settings
  , .closeListener .logging ]

/-- Number of steps in the `try` block. -/
def tryLen : Nat := tryBlockActions.length

/-- Kinds of exception that can escape a step of the `try` block. The
`catch` at main.cpp:233 names `web::http::http_exception`, the
transport-layer exception type; any other exception type propagates out
of `main`. -/
inductive ExnKind where
  | httpException
  | other
deriving DecidableEq, Repr

/-- How the `try` block finishes: normally, or with an exception thrown at
step `k`. -/
inductive TryOutcome where
  | normal
  | thrown (k : Fin tryLen) (kind : ExnKind)

/-- The actions of `main` before the `try` block that touch the registry
model: spawn the broadcaster thread (:143), spawn the sweeper thread
(:152), seed the self resources (:161), insert them into the registry
(:165), and, when a service priority is configured, register the mDNS
services (:178-184). -/
def preamble (advertise : Bool) : List MainAction :=
  [ .startThread .queryWsEventsSending
  , .startThread .registrationExpiration
  , .seedSelfResources
  , .insertSelfIntoRegistry ]
  ++ (if advertise then [.registerMdnsServices] else [])

/-- The `try` block's trace for a given outcome: a thrown
`http_exception` truncates the block and is logged by the `catch`
(main.cpp:233-236); any other exception truncates the block and is not
caught. -/
def tryBlock : TryOutcome → List MainAction
  | .normal => tryBlockActions
  | .thrown k .httpException => tryBlockActions.take k.val ++ [.logHttpException]
  | .thrown k .other => tryBlockActions.take k.val

/-- The shutdown epilogue (main.cpp lines 238-244): set the shared
`shutdown` flag, notify both condition variables, join both worker
threads, log that the registry is stopping. -/
def shutdownEpilogue : List MainAction :=
  [ .setShutdownFlag
  , .notifyAll .registrationExpirationCondition
  , .notifyAll .queryWsEventsCondition
  , .joinThread .registrationExpiration
  , .joinThread .queryWsEventsSending
  , .logStopping ]

/-- What follows the `try` block: after a normal finish or a caught
`http_exception` the epilogue runs; an uncaught exception terminates the
process abnormally and the epilogue never runs. -/
def tailPart : TryOutcome → List MainAction
  | .normal => shutdownEpilogue
  | .thrown _ .httpException => shutdownEpilogue
  | .thrown _ .other => [.abnormalTermination]

/-- The whole trace of `main` for a given advertise setting and `try`
outcome. -/
def mainTrace (advertise : Bool) (o : TryOutcome) : List MainAction :=
  preamble advertise ++ tryBlock o ++ tailPart o

/-- The condition-variable and mutex wiring of `main`: which shared
synchronisation object each component receives. -/
structure Wiring where
  /-- cv the broadcaster thread blocks on (main.cpp:133, 143) -/
  broadcasterWaitCv : CVId
  /-- cv the Registration API notifies on changes (main.cpp:147) -/
  registrationApiEventsCv : CVId
  /-- cv the sweeper thread sleeps on between scans (main.cpp:151-152) -/
  sweeperWakeCv : CVId
  /-- cv the sweeper notifies when it erases expired resources (main.cpp:152) -/
  sweeperEventsCv : CVId
  /-- cv the query WS open handler notifies on subscription attach (main.cpp:136) -/
  wsOpenHandlerEventsCv : CVId
  /-- mutex given to the Registration API (main.cpp:147) -/
  registrationApiMutex : MutexId
  /-- mutex given to the Query API (main.cpp:127) -/
  queryApiMutex : MutexId
  /-- mutex given to the query WS handlers (main.cpp:135-137) -/
  queryWsHandlersMutex : MutexId
  /-- mutex given to the sweeper thread (main.cpp:152) -/
  sweeperMutex : MutexId
  /-- mutex given to the broadcaster thread (main.cpp:143) -/
  broadcasterMutex : MutexId
  /-- mutex given to the Node API (main.cpp:156) -/
  nodeApiMutex : MutexId
  /-- mutex given to the Settings API (main.cpp:115) -/
  settingsApiMutex : MutexId

/-- The wiring actually constructed by `main`, read off main.cpp lines
109-158. -/
def mainWiring : Wiring :=
  { broadcasterWaitCv := .queryWsEventsCondition
  , registrationApiEventsCv := .queryWsEventsCondition
  , sweeperWakeCv := .registrationExpirationCondition
  , sweeperEventsCv := .queryWsEventsCondition
  , wsOpenHandlerEventsCv := .queryWsEventsCondition
  , registrationApiMutex := .registryMutex
  , queryApiMutex := .registryMutex
  , queryWsHandlersMutex := .registryMutex
  , sweeperMutex := .registryMutex
  , broadcasterMutex := .registryMutex
  , nodeApiMutex := .selfMutex
  , settingsApiMutex := .registryMutex }

/-- C1: whenever `main` completes (the `try` block returned normally or
threw the caught transport exception), its trace ends by setting the
shared shutdown flag, then broadcasting the wake signals of both
background workers (the sweeper's `registration_expiration_condition` and
the broadcaster's `query_ws_events_condition`), then joining both worker
threads, before the final completion action — so shutdown does not
complete while either worker is still running. -/
theorem main_shutdown_orderly (advertise : Bool) (o : TryOutcome)
    (h : MainAction.abnormalTermination ∉ mainTrace advertise o) :
    ∃ p, mainTrace advertise o = p ++
      [ .setShutdownFlag
      , .notifyAll mainWiring.sweeperWakeCv
      , .notifyAll mainWiring.broadcasterWaitCv
      , .joinThread .registrationExpiration
      , .joinThread .queryWsEventsSending
      , .logStopping ] := by
  match o with
  | .normal =>
      exact ⟨preamble advertise ++ tryBlock .normal, by
        simp [mainTrace, tailPart, shutdownEpilogue, mainWiring]⟩
  | .thrown k .httpException =>
      exact ⟨preamble advertise ++ tryBlock (.thrown k .httpException), by
        simp [mainTrace, tailPart, shutdownEpilogue, mainWiring]⟩
  | .thrown k .other =>
      exact absurd (by simp [mainTrace, tailPart]) h

/-- Witness for C1 at a concrete input: the normal outcome with
advertising enabled. -/
theorem main_shutdown_orderly_witness :
    MainAction.abnormalTermination ∉ mainTrace true .normal ∧
    ∃ p, mainTrace true .normal = p ++
      [ .setShutdownFlag
      , .notifyAll mainWiring.sweeperWakeCv
      , .notifyAll mainWiring.broadcasterWaitCv
      , .joinThread .registrationExpiration
      , .joinThread .queryWsEventsSending
      , .logStopping ] :=
  ⟨by decide, main_shutdown_orderly true .normal (by decide)⟩

/-- C2: whatever step of the `try` block a transport-layer
(`web::http::http_exception`) exception escapes from, it is caught at the
top level of `main` and logged, and the full orderly worker shutdown
(flag, notifies, joins) still runs; the process does not terminate
abnormally. -/
theorem http_exception_caught_shutdown_still_orderly
    (advertise : Bool) (k : Fin tryLen) :
    MainAction.logHttpException ∈ mainTrace advertise (.thrown k .httpException) ∧
    MainAction.abnormalTermination ∉ mainTrace advertise (.thrown k .httpException) ∧
    ∃ p, mainTrace advertise (.thrown k .httpException) = p ++ shutdownEpilogue := by
  refine ⟨?_, ?_, ?_⟩
  · simp [mainTrace, tryBlock, tailPart]
  · intro hmem
    simp only [mainTrace, tryBlock, tailPart, List.mem_append] at hmem
    rcases hmem with ((hp | ht) | he)
    · cases advertise <;> simp [preamble] at hp
    · rcases ht with ht | ht
      · exact absurd ((List.take_sublist _ _).subset ht) (by decide)
      · simp at ht
    · simp [shutdownEpilogue] at he
  · exact ⟨preamble advertise ++ tryBlock (.thrown k .httpException), by
      simp [mainTrace, tailPart]⟩

/-- A minimal JSON value model, enough for `web::json::value` as used by
the settings handling of main.cpp lines 59-99. -/
inductive Json where
  | null
  | bool (b : Bool)
  | num (n : Int)
  | str (s : String)
  | obj (fields : List (String × Json))

/-- `web::json::value::is_null`. -/
def Json.isNull : Json → Bool
  | .null => true
  | _ => false

/-- `web::json::value::is_object`. -/
def Json.isObject : Json → Bool
  | .obj _ => true
  | _ => false

/-- Field lookup on a JSON object, as `value[name]` reads. -/
def Json.getField (j : Json) (k : String) : Option Json :=
  match j with
  | .obj fs => fs.lookup k
  | _ => none

/-- Modelled from the spec: the slog severity constants are defined in the
third-party slog header, not under src; the comment at main.cpp:49
documents the severity range as 40 (least verbose) to -40 (most verbose),
with `info` at 0 and `more_info` one step more verbose. -/
def more_info : Int := -10

/-- Modelled from the spec: the `nmos::fields::logging_level` accessor
(nmos/settings.h, not under src) reads the `logging_level` field of the
settings object, with the initial level as default when absent. -/
def logging_level_of (j : Json) : Int :=
  match j.getField "logging_level" with
  | some (.num n) => n
  | _ => more_info

/-- The default settings object built by main.cpp lines 75-83 when no
valid settings were supplied: the current level, lenient registration
enabled, and the discovered host name and address, in that insertion
order. -/
def mkDefaultSettings (lvl : Int) (hostName hostAddress : String) : Json :=
  .obj [ ("logging_level", .num lvl)
       , ("allow_invalid_resources", .bool true)
       , ("host_name", .str hostName)
       , ("host_address", .str hostAddress) ]

/-- How `main` was invoked: without a settings argument, or with one whose
parse either failed (`none`) or produced a JSON value. -/
inductive CmdLine where
  | noArgs
  | withArg (parsed : Option Json)

/-- The outcome of the settings-initialisation prologue of `main`. -/
structure StartupSettings where
  settings : Json
  level : Int
  parseErrorLogged : Bool

/-- The settings initialisation of main.cpp lines 59-83: a supplied
argument that fails to parse, or parses to a non-object, resets the
settings to null and logs an error; a parsed object is kept and the level
read from it; then, if the settings are still null, the default settings
object is built. -/
def initialSettings (hostName hostAddress : String) (c : CmdLine) :
    StartupSettings :=
  let afterParse : Json × Bool × Int :=
    match c with
    | .noArgs => (Json.null, false, more_info)
    | .withArg none => (Json.null, true, more_info)
    | .withArg (some j) =>
        if j.isObject then (j, false, logging_level_of j)
        else (Json.null, true, more_info)
  let s := afterParse.1
  let logged := afterParse.2.1
  let lvl := afterParse.2.2
  if s.isNull then
    { settings := mkDefaultSettings lvl hostName hostAddress
    , level := lvl
    , parseErrorLogged := logged }
  else
    { settings := s, level := lvl, parseErrorLogged := logged }

/-- C10: starting with no command-line settings and starting with an
argument that fails to parse both proceed to the same default settings —
the parse failure is only logged — and under those defaults
`allow_invalid_resources` is `true` and the logging level is `more_info`. -/
theorem bad_or_missing_settings_same_defaults (hostName hostAddress : String) :
    (initialSettings hostName hostAddress .noArgs).settings
      = (initialSettings hostName hostAddress (.withArg none)).settings ∧
    (initialSettings hostName hostAddress .noArgs).level
      = (initialSettings hostName hostAddress (.withArg none)).level ∧
    (initialSettings hostName hostAddress .noArgs).parseErrorLogged = false ∧
    (initialSettings hostName hostAddress (.withArg none)).parseErrorLogged = true ∧
    (initialSettings hostName hostAddress .noArgs).level = more_info ∧
    (initialSettings hostName hostAddress .noArgs).settings.getField
      "allow_invalid_resources" = some (.bool true) ∧
    (initialSettings hostName hostAddress .noArgs).settings.getField
      "logging_level" = some (.num more_info) := by
  refine ⟨rfl, rfl, rfl, rfl, rfl, ?_, ?_⟩ <;>
    simp [initialSettings, mkDefaultSettings, Json.getField, Json.isNull,
      List.lookup]

/-- The fixed resource kinds of the domain's type taxonomy (spec §3). -/
inductive RType where
  | node
  | device
  | source
  | flow
  | sender
  | receiver
deriving DecidableEq, Repr

/-- Modelled from the spec: the resource record of §3 (`nmos::resource`
lives in nmos/model.h, not under src): id, type, version, structured
attributes, parent references, optional health deadline (absent for
expiry-exempt resources), creation order marker. -/
structure Resource where
  id : String
  rtype : RType
  version : Nat
  data : List (String × String)
  parent_refs : List String
  health_deadline : Option Nat
  created_at : Nat
deriving DecidableEq, Repr

/-- The resource store: the registered resources, ids unique (spec §3). -/
abbrev Store := List Resource

/-- Look up a resource by id. -/
def findRes (s : Store) (i : String) : Option Resource :=
  s.find? (fun r => r.id == i)

/-- The error kinds of spec §7 reported synchronously by the registration
engine. -/
inductive RegError where
  | InvalidBody
  | Conflict
  | NotFound
  | MissingParent
deriving DecidableEq, Repr

/-- Modelled from the spec: §4.2 `register` — `InvalidBody` when required
attributes are missing (here: an empty id), an implicit update when the
same `(type, id)` already exists, `Conflict` when the id exists with a
different type, and otherwise `MissingParent` when a referenced parent is
absent from the store unless the lenient-registration option is active,
in which case the resource is admitted; a successful registration sets
`health_deadline = now + TTL`. -/
def register (lenient : Bool) (now ttl : Nat) (r : Resource) (s : Store) :
    Except RegError Store :=
  if r.id = "" then .error .InvalidBody
  else
    match findRes s r.id with
    | some old =>
        if old.rtype = r.rtype then
          .ok (s.map (fun r' =>
            if r'.id == r.id then
              { r' with
                  data := r.data
                  version := r'.version + 1
                  health_deadline := r'.health_deadline.map (fun _ => now + ttl) }
            else r'))
        else .error .Conflict
    | none =>
        if lenient || r.parent_refs.all (fun p => (findRes s p).isSome) then
          .ok ({ r with health_deadline := some (now + ttl) } :: s)
        else .error .MissingParent

/-- The store the caller holds after a `register` call: unchanged when the
operation reported an error. -/
def registerApplied (lenient : Bool) (now ttl : Nat) (r : Resource)
    (s : Store) : Store :=
  match register lenient now ttl r s with
  | .ok s' => s'
  | .error _ => s

/-- C6: registering a fresh resource one of whose parent references is
absent from the store fails with `MissingParent`, leaving the store
unchanged, when the lenient-registration option is off; the very same
operation succeeds, admitting the resource, when the option is on. -/
theorem register_missing_parent_lenient (now ttl : Nat) (r : Resource)
    (s : Store) (p : String)
    (hid : r.id ≠ "")
    (hfresh : findRes s r.id = none)
    (hp : p ∈ r.parent_refs)
    (habsent : findRes s p = none) :
    register false now ttl r s = .error .MissingParent ∧
    registerApplied false now ttl r s = s ∧
    ∃ s', register true now ttl r s = .ok s' ∧
      findRes s' r.id = some { r with health_deadline := some (now + ttl) } := by
  have hall : r.parent_refs.all (fun q => (findRes s q).isSome) = false := by
    apply List.all_eq_false.mpr
    exact ⟨p, hp, by simp [habsent]⟩
  have herr : register false now ttl r s = .error .MissingParent := by
    simp [register, hid, hfresh, hall]
  refine ⟨herr, by simp [registerApplied, herr], ?_⟩
  refine ⟨{ r with health_deadline := some (now + ttl) } :: s, ?_, ?_⟩
  · simp [register, hid, hfresh]
  · simp [findRes, List.find?]

/-- Witness for C6: a device referencing the absent parent node
`"missing-node"` in the empty store. -/
theorem register_missing_parent_lenient_witness :
    register false 5 12
      { id := "d1", rtype := .device, version := 0, data := []
      , parent_refs := ["missing-node"], health_deadline := none
      , created_at := 0 } [] = .error .MissingParent ∧
    registerApplied false 5 12
      { id := "d1", rtype := .device, version := 0, data := []
      , parent_refs := ["missing-node"], health_deadline := none
      , created_at := 0 } [] = [] ∧
    ∃ s', register true 5 12
      { id := "d1", rtype := .device, version := 0, data := []
      , parent_refs := ["missing-node"], health_deadline := none
      , created_at := 0 } [] = .ok s' ∧
      findRes s' "d1" = some
        { id := "d1", rtype := .device, version := 0, data := []
        , parent_refs := ["missing-node"], health_deadline := some 17
        , created_at := 0 } :=
  register_missing_parent_lenient 5 12
    { id := "d1", rtype := .device, version := 0, data := []
    , parent_refs := ["missing-node"], health_deadline := none
    , created_at := 0 } [] "missing-node"
    (by decide) rfl (by decide) rfl


/-- The per-resource step of a deadline refresh: the resource with the
target id gets `health_deadline = now + ttl`; any other is untouched. -/
def touchRes (now ttl : Nat) (i : String) (r : Resource) : Resource :=
  if r.id == i then { r with health_deadline := some (now + ttl) } else r

/-- Refresh the health deadline of the resource with the given id to
`now + ttl`, touching nothing else. -/
def refreshDeadline (now ttl : Nat) (i : String) (s : Store) : Store :=
  s.map (touchRes now ttl i)

/-- Modelled from the spec: §4.2 `heartbeat` — refreshes `health_deadline`
only, leaving `data` and `version` untouched; fails with `NotFound` when
the resource was already expired or never registered; a resource exempt
from expiry (no deadline) is left as is. -/
def heartbeat (now ttl : Nat) (i : String) (s : Store) :
    Except RegError Store :=
  match findRes s i with
  | none => .error .NotFound
  | some r =>
      match r.health_deadline with
      | none => .ok s
      | some d =>
          if d < now then .error .NotFound
          else .ok (refreshDeadline now ttl i s)

theorem touchRes_id (now ttl : Nat) (i : String) (r : Resource) :
    (touchRes now ttl i r).id = r.id := by
  unfold touchRes
  by_cases h : (r.id == i) = true <;> simp [h]

theorem touchRes_of_ne (now ttl : Nat) (i : String) (r : Resource)
    (h : (r.id == i) = false) : touchRes now ttl i r = r := by
  simp [touchRes, h]

theorem touchRes_of_eq (now ttl : Nat) (i : String) (r : Resource)
    (h : (r.id == i) = true) :
    touchRes now ttl i r = { r with health_deadline := some (now + ttl) } := by
  simp [touchRes, h]

/-- A lookup for an id other than the refreshed one is untouched by
`refreshDeadline`. -/
theorem findRes_refreshDeadline_ne (now ttl : Nat) (i j : String) (s : Store)
    (h : j ≠ i) :
    findRes (refreshDeadline now ttl i s) j = findRes s j := by
  induction s with
  | nil => rfl
  | cons a l ih =>
      rw [refreshDeadline, List.map_cons]
      unfold findRes at ih ⊢
      by_cases ha : (a.id == j) = true
      · have haj : a.id = j := eq_of_beq ha
        have hai : (a.id == i) = false := by
          rw [haj]
          exact beq_eq_false_iff_ne.mpr h
        rw [touchRes_of_ne now ttl i a hai]
        rw [List.find?_cons_of_pos (p := fun (r : Resource) => r.id == j) _ ha,
          List.find?_cons_of_pos (p := fun (r : Resource) => r.id == j) _ ha]
      · have hta : ¬ ((touchRes now ttl i a).id == j) = true := by
          rw [touchRes_id]
          exact ha
        rw [List.find?_cons_of_neg (p := fun (r : Resource) => r.id == j) _ hta,
          List.find?_cons_of_neg (p := fun (r : Resource) => r.id == j) _ ha]
        exact ih

/-- The refreshed resource keeps its `data` and `version`; only its
deadline becomes `now + ttl`. -/
theorem findRes_refreshDeadline_eq (now ttl : Nat) (i : String) (s : Store)
    (r : Resource) (h : findRes s i = some r) :
    findRes (refreshDeadline now ttl i s) i
      = some { r with health_deadline := some (now + ttl) } := by
  induction s with
  | nil => simp [findRes] at h
  | cons a l ih =>
      rw [refreshDeadline, List.map_cons]
      unfold findRes at h ih ⊢
      by_cases ha : (a.id == i) = true
      · rw [List.find?_cons_of_pos (p := fun (r : Resource) => r.id == i) _ ha] at h
        have har : a = r := by
          injection h
        subst har
        rw [touchRes_of_eq now ttl i a ha]
        exact List.find?_cons_of_pos (p := fun (r : Resource) => r.id == i) _
          (by simpa using ha)
      · have hfa : (a.id == i) = false := by
          simpa using ha
        rw [List.find?_cons_of_neg (p := fun (r : Resource) => r.id == i) _ ha] at h
        have hta : ¬ ((touchRes now ttl i a).id == i) = true := by
          rw [touchRes_id]
          exact ha
        rw [List.find?_cons_of_neg (p := fun (r : Resource) => r.id == i) _ hta]
        exact ih h

/-- C7: a heartbeat on a registered, unexpired id succeeds and produces
exactly the deadline-refreshed store: the target's `data` and `version`
are equal before and after (only `health_deadline` moves to `now + ttl`),
and the lookup of every other id is unchanged. -/
theorem heartbeat_refreshes_deadline_only (now ttl : Nat) (i : String)
    (s : Store) (r : Resource) (d : Nat)
    (h1 : findRes s i = some r)
    (h2 : r.health_deadline = some d)
    (h3 : now ≤ d) :
    heartbeat now ttl i s = .ok (refreshDeadline now ttl i s) ∧
    findRes (refreshDeadline now ttl i s) i
      = some { r with health_deadline := some (now + ttl) } ∧
    ({ r with health_deadline := some (now + ttl) } : Resource).data = r.data ∧
    ({ r with health_deadline := some (now + ttl) } : Resource).version
      = r.version ∧
    (∀ j, j ≠ i →
      findRes (refreshDeadline now ttl i s) j = findRes s j) := by
  refine ⟨?_, findRes_refreshDeadline_eq now ttl i s r h1, rfl, rfl,
    fun j hj => findRes_refreshDeadline_ne now ttl i j s hj⟩
  simp [heartbeat, h1, h2, Nat.not_lt.mpr h3]

/-- Witness for C7: heartbeat at time 4 on node `"n1"` whose deadline 10
has not yet passed, in a two-resource store. -/
theorem heartbeat_refreshes_deadline_only_witness :
    heartbeat 4 12 "n1"
      [ { id := "n1", rtype := .node, version := 3, data := [("label", "a")]
        , parent_refs := [], health_deadline := some 10, created_at := 0 }
      , { id := "n2", rtype := .node, version := 1, data := []
        , parent_refs := [], health_deadline := some 10, created_at := 1 } ]
      = .ok (refreshDeadline 4 12 "n1"
        [ { id := "n1", rtype := .node, version := 3, data := [("label", "a")]
          , parent_refs := [], health_deadline := some 10, created_at := 0 }
        , { id := "n2", rtype := .node, version := 1, data := []
          , parent_refs := [], health_deadline := some 10, created_at := 1 } ]) ∧
    findRes (refreshDeadline 4 12 "n1"
        [ { id := "n1", rtype := .node, version := 3, data := [("label", "a")]
          , parent_refs := [], health_deadline := some 10, created_at := 0 }
        , { id := "n2", rtype := .node, version := 1, data := []
          , parent_refs := [], health_deadline := some 10, created_at := 1 } ])
      "n1"
      = some { id := "n1", rtype := .node, version := 3
             , data := [("label", "a")], parent_refs := []
             , health_deadline := some 16, created_at := 0 } :=
  ⟨(heartbeat_refreshes_deadline_only 4 12 "n1"
      [ { id := "n1", rtype := .node, version := 3, data := [("label", "a")]
        , parent_refs := [], health_deadline := some 10, created_at := 0 }
      , { id := "n2", rtype := .node, version := 1, data := []
        , parent_refs := [], health_deadline := some 10, created_at := 1 } ]
      { id := "n1", rtype := .node, version := 3, data := [("label", "a")]
      , parent_refs := [], health_deadline := some 10, created_at := 0 }
      10 (by decide) rfl (by decide)).1,
   (heartbeat_refreshes_deadline_only 4 12 "n1"
      [ { id := "n1", rtype := .node, version := 3, data := [("label", "a")]
        , parent_refs := [], health_deadline := some 10, created_at := 0 }
      , { id := "n2", rtype := .node, version := 1, data := []
        , parent_refs := [], health_deadline := some 10, created_at := 1 } ]
      { id := "n1", rtype := .node, version := 3, data := [("label", "a")]
      , parent_refs := [], health_deadline := some 10, created_at := 0 }
      10 (by decide) rfl (by decide)).2.1⟩

/-- Modelled from the spec: §4.2 `delete` / §4.1 `remove` — fails with
`NotFound` when the id is absent, otherwise removes the resource and
returns it (so observers can compute the delete delta); no cascade to
dependents. -/
def removeRes (i : String) (s : Store) : Except RegError (Resource × Store) :=
  match findRes s i with
  | none => .error .NotFound
  | some r => .ok (r, s.eraseP (fun r' => r'.id == i))

/-- Modelled from the spec: the Registration API's DELETE handler
(nmos/registration_api.h, not under src) removes the resource through the
store's delete path and notifies the events condition variable `main`
wired into it (main.cpp:147). -/
def clientDelete (i : String) (s : Store) :
    Except RegError (Store × CVId) :=
  (removeRes i s).map (fun p => (p.2, mainWiring.registrationApiEventsCv))

/-- Modelled from the spec: one deletion performed by
`nmos::erase_expired_resources_thread` (nmos/registration_api.h, not
under src) — per §4.3 the sweeper re-checks the deadline at the moment of
removal, deletes via the Registration Engine's delete path, and notifies
the events condition variable `main` wired into it (main.cpp:152). -/
def sweeperExpire (now : Nat) (i : String) (s : Store) :
    Option (Store × CVId) :=
  match findRes s i with
  | none => none
  | some r =>
      match r.health_deadline with
      | none => none
      | some d =>
          if d < now then
            match removeRes i s with
            | .ok p => some (p.2, mainWiring.sweeperEventsCv)
            | .error _ => none
          else none

/-- C3: deleting an expired resource through the sweeper yields exactly
the store an explicit client delete of the same id yields, and both
notify the identical condition variable — the one the Event Broadcaster
blocks on — so an expiration is observationally equivalent to a client
delete for subscribers. -/
theorem sweeper_delete_equiv_client_delete (now : Nat) (i : String)
    (s : Store) (r : Resource) (d : Nat)
    (h1 : findRes s i = some r)
    (h2 : r.health_deadline = some d)
    (h3 : d < now) :
    ∃ s', sweeperExpire now i s = some (s', mainWiring.broadcasterWaitCv) ∧
      clientDelete i s = .ok (s', mainWiring.broadcasterWaitCv) := by
  refine ⟨s.eraseP (fun r' => r'.id == i), ?_, ?_⟩
  · simp [sweeperExpire, removeRes, h1, h2, h3, mainWiring]
  · simp [clientDelete, removeRes, h1, mainWiring, Except.map]

/-- Witness for C3: at time 20, node `"n1"` whose deadline 10 has passed. -/
theorem sweeper_delete_equiv_client_delete_witness :
    ∃ s', sweeperExpire 20 "n1"
        [ { id := "n1", rtype := .node, version := 0, data := []
          , parent_refs := [], health_deadline := some 10, created_at := 0 } ]
        = some (s', mainWiring.broadcasterWaitCv) ∧
      clientDelete "n1"
        [ { id := "n1", rtype := .node, version := 0, data := []
          , parent_refs := [], health_deadline := some 10, created_at := 0 } ]
        = .ok (s', mainWiring.broadcasterWaitCv) :=
  sweeper_delete_equiv_client_delete 20 "n1"
    [ { id := "n1", rtype := .node, version := 0, data := []
      , parent_refs := [], health_deadline := some 10, created_at := 0 } ]
    { id := "n1", rtype := .node, version := 0, data := []
    , parent_refs := [], health_deadline := some 10, created_at := 0 }
    10 (by decide) rfl (by decide)

/-- Modelled from the spec: `nmos::experimental::make_server_resources`
(nmos/server_resources.h, not under src). Per §2 (Self-Description
Registrar) and main.cpp:160-165 it builds the resources describing the
registry's own node-facing endpoint — configured to never expire, i.e.
with no health deadline. -/
def make_server_resources (settings : Json) : List Resource :=
  [ { id := "self", rtype := .node, version := 0
    , data := [ ("label", "nmos-cpp registry")
              , ("host", match settings.getField "host_address" with
                         | some (.str s) => s
                         | _ => "") ]
    , parent_refs := [], health_deadline := none, created_at := 0 }
  , { id := "self-device", rtype := .device, version := 0
    , data := [("label", "nmos-cpp registry device")]
    , parent_refs := ["self"], health_deadline := none, created_at := 1 } ]

/-- Scan of a `main` trace: `true` iff the self-resources insertion comes
before any listener-open action. -/
def noOpenBeforeSeed : List MainAction → Bool
  | [] => true
  | .openListener _ :: _ => false
  | .insertSelfIntoRegistry :: _ => true
  | _ :: rest => noOpenBeforeSeed rest

theorem noOpenBeforeSeed_preamble (advertise : Bool) (x : List MainAction) :
    noOpenBeforeSeed (preamble advertise ++ x) = true := by
  cases advertise <;> rfl

theorem count_take_tryBlock (a : MainAction) (h : tryBlockActions.count a = 0)
    (k : Nat) : (tryBlockActions.take k).count a = 0 := by
  have := (List.take_sublist k tryBlockActions).count_le a
  omega

theorem count_tryBlock_zero (a : MainAction) (h : tryBlockActions.count a = 0)
    (h2 : a ≠ .logHttpException) (o : TryOutcome) :
    (tryBlock o).count a = 0 := by
  cases o with
  | normal => exact h
  | thrown k kind =>
      cases kind with
      | httpException =>
          have hne : ¬ (MainAction.logHttpException = a) := fun he => h2 he.symm
          simp [tryBlock, List.count_append, count_take_tryBlock a h k.val,
            List.count_cons, List.count_nil, hne]
      | other => exact count_take_tryBlock a h k.val

/-- C4: in every run of `main`, the self-description resources are seeded
and inserted into the registry store exactly once, and that insertion
precedes every listener-open action; the seeded resources carry no health
deadline, and the sweeper never deletes a resource without a health
deadline — so they are never removed by health expiration. -/
theorem self_resources_once_before_open_never_expired :
    (∀ (advertise : Bool) (o : TryOutcome),
      (mainTrace advertise o).count .insertSelfIntoRegistry = 1 ∧
      (mainTrace advertise o).count .seedSelfResources = 1 ∧
      noOpenBeforeSeed (mainTrace advertise o) = true) ∧
    (∀ j : Json, ∀ r ∈ make_server_resources j, r.health_deadline = none) ∧
    (∀ (now : Nat) (i : String) (s : Store) (r : Resource),
      findRes s i = some r → r.health_deadline = none →
      sweeperExpire now i s = none) := by
  refine ⟨?_, ?_, ?_⟩
  · intro adv o
    refine ⟨?_, ?_, ?_⟩
    · have ht : (tryBlock o).count MainAction.insertSelfIntoRegistry = 0 :=
        count_tryBlock_zero _ (by decide) (by decide) o
      have htl : (tailPart o).count MainAction.insertSelfIntoRegistry = 0 := by
        cases o with
        | normal => rfl
        | thrown k kind => cases kind <;> rfl
      have hp : (preamble adv).count MainAction.insertSelfIntoRegistry = 1 := by
        cases adv <;> decide
      simp [mainTrace, List.count_append, ht, htl, hp]
    · have ht : (tryBlock o).count MainAction.seedSelfResources = 0 :=
        count_tryBlock_zero _ (by decide) (by decide) o
      have htl : (tailPart o).count MainAction.seedSelfResources = 0 := by
        cases o with
        | normal => rfl
        | thrown k kind => cases kind <;> rfl
      have hp : (preamble adv).count MainAction.seedSelfResources = 1 := by
        cases adv <;> decide
      simp [mainTrace, List.count_append, ht, htl, hp]
    · have hm : mainTrace adv o
          = preamble adv ++ (tryBlock o ++ tailPart o) := by
        simp [mainTrace]
      rw [hm]
      exact noOpenBeforeSeed_preamble adv _
  · intro j r hr
    simp [make_server_resources] at hr
    rcases hr with h | h <;> simp [h]
  · intro now i s r h1 h2
    simp [sweeperExpire, h1, h2]

/-- Witness for C4's conditional part at concrete inputs: the seeded node
resource in the seeded store is never expired by the sweeper, and a
concrete run's trace inserts the self resources once. -/
theorem self_resources_once_before_open_never_expired_witness :
    (mainTrace true .normal).count .insertSelfIntoRegistry = 1 ∧
    sweeperExpire 100 "self" (make_server_resources Json.null) = none :=
  ⟨(self_resources_once_before_open_never_expired.1 true .normal).1,
   self_resources_once_before_open_never_expired.2.2 100 "self"
     (make_server_resources Json.null)
     { id := "self", rtype := .node, version := 0
     , data := [("label", "nmos-cpp registry"), ("host", "")]
     , parent_refs := [], health_deadline := none, created_at := 0 }
     (by decide) rfl⟩

/-- The kinds of mutation of the registry model together with the
subscription attach event (spec §4.1, §4.5). -/
inductive MutKind where
  | registerOp
  | updateOp
  | heartbeatOp
  | deleteOp
  | sweeperExpireOp
  | subscriptionAttachOp
deriving DecidableEq, Repr

/-- Modelled from the spec: which condition variables each mutating path
notifies. The comment at main.cpp:133 states `query_ws_events_condition`
is notified on any change to `registry_model`; the Registration API
handlers notify the condition `main` wired into them (main.cpp:147), the
sweeper the one wired at main.cpp:152, and the WS open handler — which
records a subscription attach — the one wired at main.cpp:136. -/
def notifiedCvs : MutKind → List CVId
  | .sweeperExpireOp => [mainWiring.sweeperEventsCv]
  | .subscriptionAttachOp => [mainWiring.wsOpenHandlerEventsCv]
  | _ => [mainWiring.registrationApiEventsCv]

/-- C8: every mutation of the resource store — register, update,
heartbeat, delete, a sweeper expiration — and every subscription attach
event notifies the condition variable the Event Broadcaster blocks on, so
the broadcaster is never left asleep while un-delivered deltas exist. -/
theorem every_mutation_notifies_broadcaster (k : MutKind) :
    mainWiring.broadcasterWaitCv ∈ notifiedCvs k := by
  cases k <;> simp [notifiedCvs, mainWiring]

/-- The lock-acquisition state of one concurrent actor: the lock it holds
across the store/subscription structures, if any, and the lock it is
blocked waiting for, if any. -/
structure ActorState where
  holdsLock : Option MutexId
  waitsFor : Option MutexId
deriving DecidableEq, Repr

/-- Modelled from the spec: §5 lock discipline — strictly single-lock, no
nested locks across the store/subscription structures, so an actor that
is waiting to acquire holds nothing. -/
def SingleLockDiscipline (c : List ActorState) : Prop :=
  ∀ a ∈ c, a.waitsFor ≠ none → a.holdsLock = none

/-- A deadlock among a set of actors: a non-empty subset in which every
actor waits for a lock held by some actor of the subset. -/
def DeadlockCycle (c : List ActorState) : Prop :=
  ∃ s : List ActorState, s ≠ [] ∧ (∀ a ∈ s, a ∈ c) ∧
    ∀ a ∈ s, ∃ m : MutexId, a.waitsFor = some m ∧
      ∃ b ∈ s, b.holdsLock = some m

/-- C9: `main` hands the one `registry_mutex` to the Registration API,
the Query API, the query WebSocket handlers, the Expiration Sweeper and
the Event Broadcaster alike; and under the single-lock discipline — a
waiting actor holds no lock across these structures — no configuration of
actors can deadlock on these locks. -/
theorem single_registry_mutex_no_deadlock :
    (mainWiring.registrationApiMutex = MutexId.registryMutex ∧
     mainWiring.queryApiMutex = MutexId.registryMutex ∧
     mainWiring.queryWsHandlersMutex = MutexId.registryMutex ∧
     mainWiring.sweeperMutex = MutexId.registryMutex ∧
     mainWiring.broadcasterMutex = MutexId.registryMutex) ∧
    ∀ c : List ActorState, SingleLockDiscipline c → ¬ DeadlockCycle c := by
  refine ⟨⟨rfl, rfl, rfl, rfl, rfl⟩, ?_⟩
  intro c hd hcy
  rcases hcy with ⟨s, hne, hsub, hw⟩
  cases s with
  | nil => exact hne rfl
  | cons a s' =>
      rcases hw a (List.mem_cons_self a s') with ⟨m, _, b, hbs, hbh⟩
      rcases hw b hbs with ⟨m2, hwm2, _⟩
      have hnone : b.holdsLock = none := hd b (hsub b hbs) (by simp [hwm2])
      rw [hnone] at hbh
      exact Option.noConfusion hbh

/-- A concrete two-actor configuration: one actor inside the critical
section, one waiting to enter it. -/
def demoLockConfig : List ActorState :=
  [ { holdsLock := some .registryMutex, waitsFor := none }
  , { holdsLock := none, waitsFor := some .registryMutex } ]

/-- Witness for C9: the concrete configuration satisfies the discipline
and therefore cannot deadlock. -/
theorem single_registry_mutex_no_deadlock_witness :
    SingleLockDiscipline demoLockConfig ∧ ¬ DeadlockCycle demoLockConfig := by
  have hdisc : SingleLockDiscipline demoLockConfig := by
    intro a ha hw
    simp only [demoLockConfig, List.mem_cons, List.not_mem_nil, or_false] at ha
    rcases ha with h | h
    · subst h
      exact absurd rfl hw
    · subst h
      rfl
  exact ⟨hdisc, single_registry_mutex_no_deadlock.2 demoLockConfig hdisc⟩

/-- The named runtime options adjustable post-startup (spec §6): the
logging verbosity level and the lenient-registration flag. -/
structure RuntimeOptions where
  logging_level : Int
  allow_invalid_resources : Bool
deriving DecidableEq, Repr

/-- A change POSTed to the Settings API for one of the named runtime
options. -/
inductive SettingChange where
  | setLoggingLevel (v : Int)
  | setAllowInvalid (b : Bool)
deriving DecidableEq, Repr

/-- Modelled from the spec: `nmos::experimental::make_settings_api`
(nmos/settings_api.h, not under src) merges a POSTed change into the
shared settings under the registry mutex and stores the level into the
shared atomic, so the new value is what every later reader sees. -/
def applyChange (o : RuntimeOptions) : SettingChange → RuntimeOptions
  | .setLoggingLevel v => { o with logging_level := v }
  | .setAllowInvalid b => { o with allow_invalid_resources := b }

/-- One step of the running registry, as far as the runtime options are
concerned: either a settings change, or any other operation — which reads
the options current at that moment. -/
inductive ApiStep where
  | change (c : SettingChange)
  | operation
deriving DecidableEq, Repr

/-- The options state after a step. -/
def stepState (o : RuntimeOptions) : ApiStep → RuntimeOptions
  | .change c => applyChange o c
  | .operation => o

/-- The options state after a whole run. -/
def runState (o : RuntimeOptions) (steps : List ApiStep) : RuntimeOptions :=
  steps.foldl stepState o

/-- The options each non-change operation of the run observes, in run
order. -/
def observedOptions (o : RuntimeOptions) : List ApiStep → List RuntimeOptions
  | [] => []
  | .change c :: rest => observedOptions (applyChange o c) rest
  | .operation :: rest => o :: observedOptions o rest

theorem observedOptions_append (o : RuntimeOptions) (l1 l2 : List ApiStep) :
    observedOptions o (l1 ++ l2)
      = observedOptions o l1 ++ observedOptions (runState o l1) l2 := by
  induction l1 generalizing o with
  | nil => rfl
  | cons a l ih =>
      cases a with
      | change c => simpa [observedOptions, runState] using ih (applyChange o c)
      | operation => simpa [observedOptions, runState] using ih o

theorem observedOptions_no_change (o : RuntimeOptions) (l : List ApiStep)
    (h : ∀ s ∈ l, s = ApiStep.operation) :
    observedOptions o l = List.replicate l.length o := by
  induction l with
  | nil => rfl
  | cons a l ih =>
      have ha : a = ApiStep.operation := h a (List.mem_cons_self a l)
      subst ha
      simp [observedOptions, List.replicate]
      exact ih (fun s hs => h s (List.mem_cons_of_mem _ hs))

/-- C5: applying a change to a named runtime option takes effect
immediately — every operation after the change (until another change)
observes exactly the post-change options, while the operations before it
observe what they would have observed had the change never happened; and
the post-change options carry the new value, for the logging level and
the lenient-registration flag alike. -/
theorem setting_change_effective_immediately (o : RuntimeOptions)
    (pre post : List ApiStep) (c : SettingChange)
    (h : ∀ s ∈ post, s = ApiStep.operation) :
    observedOptions o (pre ++ ApiStep.change c :: post)
      = observedOptions o pre
        ++ List.replicate post.length (applyChange (runState o pre) c) ∧
    (∀ st v, (applyChange st (.setLoggingLevel v)).logging_level = v) ∧
    (∀ st b, (applyChange st (.setAllowInvalid b)).allow_invalid_resources = b) := by
  refine ⟨?_, fun st v => rfl, fun st b => rfl⟩
  rw [observedOptions_append]
  congr 1
  show observedOptions (applyChange (runState o pre) c) post = _
  exact observedOptions_no_change _ post h

/-- Witness for C5: lower the logging level to -40 after one operation;
the two following operations observe level -40 while the first observed
level 0. -/
theorem setting_change_effective_immediately_witness :
    observedOptions { logging_level := 0, allow_invalid_resources := true }
        ([ApiStep.operation] ++ ApiStep.change (.setLoggingLevel (-40))
          :: [ApiStep.operation, ApiStep.operation])
      = observedOptions { logging_level := 0, allow_invalid_resources := true }
          [ApiStep.operation]
        ++ List.replicate 2 (applyChange
            (runState { logging_level := 0, allow_invalid_resources := true }
              [ApiStep.operation])
            (.setLoggingLevel (-40))) :=
  (setting_change_effective_immediately
    { logging_level := 0, allow_invalid_resources := true }
    [ApiStep.operation] [ApiStep.operation, ApiStep.operation]
    (.setLoggingLevel (-40)) (by decide)).1
